import Mathlib

/-!
Verification of the batch video aspect-ratio converter (`src/test3.py`).

The development shallowly embeds the pure logic of the converter:

* the filename sanitizer (`sanitize_filename`, lines 76-85), together with a
  faithful model of CPython `pathlib.PurePosixPath.stem` / `.suffix`;
* the per-method output geometry computed by `convert_video`
  (lines 131-144): letterbox, crop and zoom filter parameters;
* the control flow of `convert_video` (lines 88-215): the skip-if-output-
  exists check, the two-iteration retry loop, the non-transient validation
  returns, the encoder-failure / timeout / exception handling and the
  partial-output cleanup.  File-system and subprocess effects are abstracted
  into an `Env` oracle giving, per attempt, the outcome of the metadata probe
  and of the encoder invocation; the function returns the job result together
  with observable effect counters (attempts made, probe calls, encoder calls,
  whether the input file was ever checked, the filter strings passed to the
  encoder, and whether a file at the output path is present on return);
* discovery of video files by extension (`find_videos`, lines 218-234).

Machine integers are modelled as `Nat`/`Int`; Python `x * a / b` followed by
`int(...)` on nonnegative values is floor division, modelled as `Nat` division
(exact for all realistic video dimensions, where the IEEE double computation
is exact or its truncation agrees with the rational floor).
-/

/-! ### CPython `pathlib` name/stem/suffix model (POSIX flavour)

`PurePosixPath(s).name` is the last path component after splitting on `/` and
dropping empty components and `.` components.  `.stem` / `.suffix` split the
name at its last dot `i` provided `0 < i < len(name) - 1`. -/

/-- Split a character list at `/` separators (the groups between slashes,
in order; empty groups are kept, as `pathlib` drops them afterwards). -/
def splitSlash : List Char → List (List Char)
  | [] => [[]]
  | c :: rest =>
    match splitSlash rest with
    | [] => [[]]
    | g :: gs => if c = '/' then [] :: g :: gs else (c :: g) :: gs

/-- `PurePosixPath(s).name` as a character list: the last component that is
neither empty nor `.` (or `[]` when there is none). -/
def pathNameL (cs : List Char) : List Char :=
  ((splitSlash cs).filter (fun p => p != [] && p != ['.'])).getLastD []

/-- Index of the last `.` in a character list, if any. -/
def rfindDot : List Char → Option Nat
  | [] => none
  | c :: rest =>
    match rfindDot rest with
    | some i => some (i + 1)
    | none => if c = '.' then some 0 else none

/-- `PurePosixPath(s).stem` as a character list: the name with its suffix
removed; the dot position must be interior (`0 < i < len - 1`). -/
def pathStemL (cs : List Char) : List Char :=
  let n := pathNameL cs
  match rfindDot n with
  | some i => if 0 < i ∧ i < n.length - 1 then n.take i else n
  | none => n

/-- `PurePosixPath(s).suffix` as a character list (`[]` when there is none). -/
def pathSuffixL (cs : List Char) : List Char :=
  let n := pathNameL cs
  match rfindDot n with
  | some i => if 0 < i ∧ i < n.length - 1 then n.drop i else []
  | none => []

/-- `Path(s).stem` on strings. -/
def pathStem (s : String) : String := String.mk (pathStemL s.toList)

/-- `Path(s).suffix` on strings. -/
def pathSuffix (s : String) : String := String.mk (pathSuffixL s.toList)

/-! ### Filename sanitizer (`sanitize_filename`, src/test3.py lines 76-85) -/

/-- The disallowed characters replaced by `sanitize_filename`
(src/test3.py line 82): `| / \ : * ? " < > NUL` and the full-width pipe. -/
def badChars : List Char := ['|', '/', '\\', ':', '*', '?', '"', '<', '>', '\x00', '｜']

/-- One character of the sanitizer's replacement pass. -/
def replaceBad (c : Char) : Char := if c ∈ badChars then '-' else c

/-- `sanitize_filename` (src/test3.py lines 76-85): strip the extension with
`Path(filename).stem`, then replace every disallowed character by `-`.
The Python code applies `str.replace` once per disallowed character; since
each replacement is single-character and `-` is not itself disallowed, the
sequential passes equal one simultaneous character map. -/
def sanitize_filename (filename : String) : String :=
  String.mk ((pathStemL filename.toList).map replaceBad)

/-- The output file name `{safe_name}_9x16.mp4` (src/test3.py line 97). -/
def output_filename (videoName : String) : String :=
  sanitize_filename videoName ++ "_9x16.mp4"

/-- `os.path.join(output_dir, output_filename)` (src/test3.py line 98),
POSIX join. -/
def output_path (outputDir videoName : String) : String :=
  outputDir ++ "/" ++ output_filename videoName

/-! ### Geometry (src/test3.py lines 131-144) -/

/-- Letterbox output height (src/test3.py lines 133-135):
`out_h = int(w * 16 / 9); if out_h % 2: out_h += 1`. -/
def letterboxHeight (w : Nat) : Nat :=
  if w * 16 / 9 % 2 = 1 then w * 16 / 9 + 1 else w * 16 / 9

/-- Letterbox output size: width stays the source width (the `pad` filter's
first argument is `w`), height is `letterboxHeight`. -/
def letterboxSize (w : Nat) : Nat × Nat := (w, letterboxHeight w)

/-- The letterbox pad filter string (src/test3.py line 136). -/
def letterboxVf (w : Nat) : String :=
  let outh := letterboxHeight w
  s!"pad={w}:{outh}:(ow-iw)/2:(oh-ih)/2:black"

/-- Crop width (src/test3.py lines 138-140):
`new_w = int(h * 9 / 16); if new_w % 2: new_w -= 1`. -/
def cropWidth (h : Nat) : Nat :=
  if h * 9 / 16 % 2 = 1 then h * 9 / 16 - 1 else h * 9 / 16

/-- Crop horizontal offset (src/test3.py line 141): `x = (w - new_w) // 2`,
Python floor division on a possibly negative difference. -/
def cropOffsetX (w h : Nat) : Int :=
  Int.fdiv ((w : Int) - (cropWidth h : Int)) 2

/-- Crop vertical offset: the literal `0` in the filter string
(src/test3.py line 142). -/
def cropOffsetY : Int := 0

/-- The four arguments of the crop filter `crop={new_w}:{h}:{x}:0`
(src/test3.py line 142): width, height, horizontal and vertical offset. -/
def cropSize (w h : Nat) : Nat × Nat × Int × Int :=
  (cropWidth h, h, cropOffsetX w h, cropOffsetY)

/-- The crop filter string (src/test3.py line 142). -/
def cropVf (w h : Nat) : String :=
  let cw := cropWidth h
  let x := cropOffsetX w h
  let y := cropOffsetY
  s!"crop={cw}:{h}:{x}:{y}"

/-- The zoom filter string (src/test3.py line 144): a fixed filter,
independent of the source dimensions. -/
def zoomVf : String := "scale=-2:1920,crop=1080:1920"

/-- Filter selection (src/test3.py lines 132-144): `letterbox`, `crop`, and
any other method string falls through to zoom. -/
def vfFor (method : String) (w h : Nat) : String :=
  if method = "letterbox" then letterboxVf w
  else if method = "crop" then cropVf w h
  else zoomVf

/-- Quality to CRF (src/test3.py lines 93-94):
`crf_map = {"low": 28, "medium": 23, "high": 18}; crf_map.get(quality, 23)`. -/
def crfOf (quality : String) : Nat :=
  if quality = "low" then 28
  else if quality = "medium" then 23
  else if quality = "high" then 18
  else 23

/-! ### Conversion job runner (`convert_video`, src/test3.py lines 88-215) -/

/-- Result of one metadata-probe call (`VideoFileClip`, lines 116-125):
either dimensions or a raised exception's message. -/
inductive ProbeResult where
  | ok (w h : Int)
  | err (msg : String)
deriving DecidableEq

/-- Result of one encoder invocation (lines 166-200): normal completion with
an exit code and the resulting output-file state, a timeout, or another
exception.  `outExists`/`leftFile` record whether a file at the output path
exists immediately after the invocation. -/
inductive EncodeResult where
  | done (exitCode : Int) (outExists : Bool) (outSize : Nat)
  | timedOut (leftFile : Bool)
  | raised (msg : String) (leftFile : Bool)
deriving DecidableEq

/-- The oracle for one job's environment: the pre-existing output check, the
input file's state, and the outcome of the probe and of the encoder on each
attempt (indexed by the loop variable `attempt`). -/
structure Env where
  outputExists : Bool
  inputExists : Bool
  inputSize : Nat
  probe : Nat → ProbeResult
  encode : Nat → EncodeResult

/-- The result dictionary returned by `convert_video`: skipped
(`{"success": True, "skipped": True}`), success, or failed with an error
message. -/
inductive JobResult where
  | skipped (output : String)
  | success (output : String)
  | failed (error : String)
deriving DecidableEq

/-- `convert_video`'s return value plus its observable effects: iterations
of the retry loop entered, probe calls, encoder invocations, whether the
input file's existence was ever checked, the filter strings passed to the
encoder in order, and whether a file at the output path exists on return. -/
structure RunOutcome where
  result : JobResult
  attempts : Nat
  probeCalls : Nat
  encodeCalls : Nat
  inputChecked : Bool
  vfSent : List String
  outFileLeft : Bool
deriving DecidableEq

/-- `max_retries = 2` (src/test3.py line 92). -/
def max_retries : Nat := 2

/-- One iteration of the retry loop (src/test3.py lines 105-213).
`inl` is a `return`; `inr (pc, ec, fileNow, vfs)` is a `continue` carrying
the updated counters and the output-file state into the next iteration.
The retry guard is the source's `attempt < max_retries - 1`.  On an
encoder failure or timeout with a retry remaining the partial output file
is removed (lines 180-184 and 194-198); the generic exception handler
(lines 202-205) retries without removing it. -/
def attemptStep (env : Env) (method op : String) (attempt pc ec : Nat)
    (fileNow : Bool) (vfs : List String) :
    RunOutcome ⊕ (Nat × Nat × Bool × List String) :=
  if env.inputExists = false then
    .inl ⟨.failed "Input file not found", attempt + 1, pc, ec, true, vfs, fileNow⟩
  else if env.inputSize = 0 then
    .inl ⟨.failed "Input file is empty", attempt + 1, pc, ec, true, vfs, fileNow⟩
  else
    match env.probe attempt with
    | .err e =>
      if attempt < max_retries - 1 then
        .inr (pc + 1, ec, fileNow, vfs)
      else
        .inl ⟨.failed ("Failed to read dimensions: " ++ e), attempt + 1, pc + 1, ec,
          true, vfs, fileNow⟩
    | .ok w h =>
      if w ≤ 0 ∨ h ≤ 0 then
        .inl ⟨.failed s!"Invalid dimensions: {w}x{h}", attempt + 1, pc + 1, ec,
          true, vfs, fileNow⟩
      else
        let vf := vfFor method w.toNat h.toNat
        match env.encode attempt with
        | .done rc ex sz =>
          if rc = 0 ∧ ex = true ∧ 0 < sz then
            .inl ⟨.success op, attempt + 1, pc + 1, ec + 1, true, vfs ++ [vf], ex⟩
          else if attempt < max_retries - 1 then
            .inr (pc + 1, ec + 1, false, vfs ++ [vf])
          else
            .inl ⟨.failed s!"FFmpeg process failed (exit code: {rc})", attempt + 1,
              pc + 1, ec + 1, true, vfs ++ [vf], ex⟩
        | .timedOut lf =>
          if attempt < max_retries - 1 then
            .inr (pc + 1, ec + 1, false, vfs ++ [vf])
          else
            .inl ⟨.failed "Conversion timeout (>10 minutes)", attempt + 1,
              pc + 1, ec + 1, true, vfs ++ [vf], lf⟩
        | .raised msg lf =>
          if attempt < max_retries - 1 then
            .inr (pc + 1, ec + 1, lf, vfs ++ [vf])
          else
            .inl ⟨.failed msg, attempt + 1, pc + 1, ec + 1, true, vfs ++ [vf], lf⟩

/-- The retry loop `for attempt in range(max_retries)` with the fall-through
return `{"success": False, "error": "Max retries exceeded"}` (line 215).
`fuel` is the number of iterations left; the loop is entered with
`fuel = max_retries` and `attempt = 0`. -/
def attemptLoop (env : Env) (method op : String) :
    Nat → Nat → Nat → Nat → Bool → List String → RunOutcome
  | 0, attempt, pc, ec, fileNow, vfs =>
    ⟨.failed "Max retries exceeded", attempt, pc, ec, true, vfs, fileNow⟩
  | fuel + 1, attempt, pc, ec, fileNow, vfs =>
    match attemptStep env method op attempt pc ec fileNow vfs with
    | .inl out => out
    | .inr s => attemptLoop env method op fuel (attempt + 1) s.1 s.2.1 s.2.2.1 s.2.2.2

/-- `convert_video` (src/test3.py lines 88-215): compute the output path,
return `Skipped` when it already exists (lines 100-103), otherwise run the
retry loop. -/
def convert_video (env : Env) (outputDir method quality videoName : String) :
    RunOutcome :=
  if env.outputExists = true then
    ⟨.skipped (output_path outputDir videoName), 0, 0, 0, false, [], true⟩
  else
    attemptLoop env method (output_path outputDir videoName) max_retries 0 0 0 false []

/-- The batch over a list of jobs (an environment oracle and a display name
per discovered file), as submitted by `main` (src/test3.py lines 357-368):
each job is an independent `convert_video` call with the shared output
directory, method and quality. -/
def run_batch (jobs : List (Env × String)) (outputDir method quality : String) :
    List RunOutcome :=
  jobs.map fun j => convert_video j.1 outputDir method quality j.2

/-! ### Discovery (`find_videos`, src/test3.py lines 218-234) -/

/-- The extension set (src/test3.py line 220): the four lowercase and the
four uppercase spellings, matched exactly. -/
def video_extensions : List String :=
  [".mp4", ".mov", ".mkv", ".avi", ".MP4", ".MOV", ".MKV", ".AVI"]

/-- The selection test applied to every candidate file
(src/test3.py lines 225 and 231): `Path(file).suffix in video_extensions`. -/
def hasVideoExt (file : String) : Bool :=
  video_extensions.contains (pathSuffix file)

/-- `find_videos` restricted to its selection logic: of the enumerated file
names (single file, or all files under the walked directory), those whose
suffix passes `hasVideoExt`. -/
def find_videos (files : List String) : List String :=
  files.filter hasVideoExt

/-! ### Definitions taken from the specification's wording

These are the spec-side counterparts the claims compare the code against. -/

/-- Modelled from the spec: `round_up_to_even x` is the least even natural
number that is at least `x` (for `x ≥ 0`). -/
def round_up_to_even (q : ℚ) : ℕ := 2 * ⌈q / 2⌉₊

/-- Modelled from the spec: `round_down_to_even x` is the greatest even
natural number that is at most `x` (for `x ≥ 0`). -/
def round_down_to_even (q : ℚ) : ℕ := 2 * ⌊q / 2⌋₊

/-- Classification helpers on job results. -/
def isSkipped : JobResult → Bool
  | .skipped _ => true
  | _ => false

/-- `true` exactly on `success` results. -/
def isSuccess : JobResult → Bool
  | .success _ => true
  | _ => false

/-- `true` exactly on `failed` results. -/
def isFailed : JobResult → Bool
  | .failed _ => true
  | _ => false

/-- An encoder invocation outcome the source treats as a failure: non-zero
exit, or missing, or empty output — or a timeout or exception. -/
def encodeFails : EncodeResult → Prop
  | .done rc ex sz => ¬(rc = 0 ∧ ex = true ∧ 0 < sz)
  | .timedOut _ => True
  | .raised _ _ => True

/-- Attempt `n` fails transiently: the probe raises, or it returns valid
dimensions and the encoder invocation fails. -/
def transientFailure (env : Env) (n : Nat) : Prop :=
  match env.probe n with
  | .err _ => True
  | .ok w h => 0 < w ∧ 0 < h ∧ encodeFails (env.encode n)

/-- Whether a file at the output path exists right after an encoder
invocation with the given outcome. -/
def fileLeftBy : EncodeResult → Bool
  | .done _ ex _ => ex
  | .timedOut lf => lf
  | .raised _ lf => lf

/-- The encoder outcomes whose retry path removes the partial output file
(source lines 180-184 and 194-198); the generic exception handler
(lines 202-205) retries without removing it. -/
def cleansOnRetry : EncodeResult → Prop
  | .raised _ _ => False
  | _ => True

/-! ### Generic arithmetic helpers -/

/-- Twice the natural ceiling of `t / 2` bumps odd `t` to `t + 1`. -/
theorem two_mul_ceil_half (t : ℕ) :
    2 * ⌈(t : ℚ) / 2⌉₊ = if t % 2 = 1 then t + 1 else t := by
  rcases Nat.even_or_odd t with ⟨k, hk⟩ | ⟨k, hk⟩
  · subst hk
    rw [if_neg (by omega)]
    rw [show ((k + k : ℕ) : ℚ) / 2 = (k : ℚ) by push_cast; ring, Nat.ceil_natCast]
    omega
  · subst hk
    rw [if_pos (by omega)]
    rw [show ((2 * k + 1 : ℕ) : ℚ) / 2 = 1 / 2 + (k : ℚ) by push_cast; ring]
    rw [Nat.ceil_add_nat (by norm_num)]
    rw [show ⌈(1 : ℚ) / 2⌉₊ = 1 from (Nat.ceil_eq_iff one_ne_zero).mpr
      (by constructor <;> norm_num)]
    omega

/-- Twice the natural floor of `t / 2` drops odd `t` to `t - 1`. -/
theorem two_mul_floor_half (t : ℕ) :
    2 * ⌊(t : ℚ) / 2⌋₊ = if t % 2 = 1 then t - 1 else t := by
  rcases Nat.even_or_odd t with ⟨k, hk⟩ | ⟨k, hk⟩
  · subst hk
    rw [if_neg (by omega)]
    rw [show ((k + k : ℕ) : ℚ) / 2 = (k : ℚ) by push_cast; ring, Nat.floor_natCast]
    omega
  · subst hk
    rw [if_pos (by omega)]
    rw [show ((2 * k + 1 : ℕ) : ℚ) / 2 = 1 / 2 + (k : ℚ) by push_cast; ring]
    rw [Nat.floor_add_nat (by norm_num)]
    rw [show ⌊(1 : ℚ) / 2⌋₊ = 0 from Nat.floor_eq_zero.mpr (by norm_num)]
    omega

/-- Natural floor of a quotient of natural casts is natural division. -/
theorem floor_natCast_div (a b : ℕ) : ⌊(a : ℚ) / (b : ℚ)⌋₊ = a / b := by
  rw [Nat.floor_div_nat, Nat.floor_natCast]

/-- Python floor division `// 2` on integers agrees with the rational floor. -/
theorem fdiv_two_floor (a : ℤ) : a.fdiv 2 = ⌊(a : ℚ) / 2⌋ := by
  rw [Int.fdiv_eq_ediv a (by norm_num)]
  symm
  rw [Int.floor_eq_iff]
  have h1 : ((a / 2 : ℤ) : ℚ) * 2 ≤ (a : ℚ) := by
    exact_mod_cast (by omega : (a / 2) * 2 ≤ a)
  have h2 : ((a : ℚ)) < ((a / 2 : ℤ) : ℚ) * 2 + 2 := by
    exact_mod_cast (by omega : a < (a / 2) * 2 + 2)
  constructor
  · linarith
  · linarith

/-- A natural floor of a nonnegative rational, cast to `ℤ`, is the integer
floor. -/
theorem natFloor_cast_eq_floor {q : ℚ} (hq : 0 ≤ q) : ((⌊q⌋₊ : ℤ)) = ⌊q⌋ := by
  rw [← Int.floor_toNat, Int.toNat_of_nonneg (Int.floor_nonneg.mpr hq)]

/-! ### C1 — letterbox geometry -/

/-- C1 counterexample: at `sourceWidth = 5` the code's letterbox height is 8,
but `round_up_to_even(5 × 16/9) = round_up_to_even(80/9) = 10`, and
`round(80/9) = 9 > 8`; so `outputHeight` is neither `round_up_to_even` of the
exact rational nor `≥ round` of it. -/
theorem letterbox_not_round_up_to_even :
    letterboxHeight 5 ≠ round_up_to_even ((5 : ℚ) * 16 / 9) ∧
    ((letterboxHeight 5 : ℤ) < round ((5 : ℚ) * 16 / 9)) := by
  have hlb : letterboxHeight 5 = 8 := by decide
  have hup : round_up_to_even ((5 : ℚ) * 16 / 9) = 10 := by
    unfold round_up_to_even
    rw [show (5 : ℚ) * 16 / 9 / 2 = 40 / 9 by norm_num]
    rw [show ⌈(40 : ℚ) / 9⌉₊ = 5 from (Nat.ceil_eq_iff (by norm_num)).mpr
      (by constructor <;> norm_num)]
  have hrd : round ((5 : ℚ) * 16 / 9) = 9 := by
    rw [round_eq, show (5 : ℚ) * 16 / 9 + 1 / 2 = 169 / 18 by norm_num]
    rw [Int.floor_eq_iff]
    constructor <;> norm_num
  refine ⟨?_, ?_⟩
  · rw [hlb, hup]; omega
  · rw [hlb, hrd]; norm_num

/-- C1 (amended): for every `sourceWidth > 0`, letterbox geometry keeps
`outputWidth = sourceWidth` and sets `outputHeight` to `round_up_to_even`
of the *floor* `⌊sourceWidth × 16/9⌋` (not of the exact rational);
`outputHeight` is even and lies between that floor and the floor plus one. -/
theorem letterbox_geometry (w : Nat) (hw : 0 < w) :
    (letterboxSize w).1 = w ∧
    (letterboxSize w).2 = round_up_to_even ((⌊(w : ℚ) * 16 / 9⌋₊ : ℚ)) ∧
    Even (letterboxSize w).2 ∧
    ⌊(w : ℚ) * 16 / 9⌋₊ ≤ (letterboxSize w).2 ∧
    (letterboxSize w).2 ≤ ⌊(w : ℚ) * 16 / 9⌋₊ + 1 := by
  have hfl : ⌊(w : ℚ) * 16 / 9⌋₊ = w * 16 / 9 := by
    rw [show (w : ℚ) * 16 = ((w * 16 : ℕ) : ℚ) by push_cast; ring,
        show (9 : ℚ) = ((9 : ℕ) : ℚ) by norm_num, floor_natCast_div]
  refine ⟨rfl, ?_, ?_, ?_, ?_⟩
  · show letterboxHeight w = _
    rw [hfl]
    unfold round_up_to_even letterboxHeight
    rw [two_mul_ceil_half]
  · show Even (letterboxHeight w)
    rw [Nat.even_iff]
    unfold letterboxHeight
    split <;> omega
  · show _ ≤ letterboxHeight w
    rw [hfl]
    unfold letterboxHeight
    split <;> omega
  · show letterboxHeight w ≤ _
    rw [hfl]
    unfold letterboxHeight
    split <;> omega

/-- C1 witness at `sourceWidth = 7`. -/
theorem letterbox_geometry_witness :
    0 < 7 ∧
    ((letterboxSize 7).1 = 7 ∧
     (letterboxSize 7).2 = round_up_to_even ((⌊(7 : ℚ) * 16 / 9⌋₊ : ℚ)) ∧
     Even (letterboxSize 7).2 ∧
     ⌊(7 : ℚ) * 16 / 9⌋₊ ≤ (letterboxSize 7).2 ∧
     (letterboxSize 7).2 ≤ ⌊(7 : ℚ) * 16 / 9⌋₊ + 1) :=
  ⟨by decide, by exact_mod_cast letterbox_geometry 7 (by decide)⟩

/-! ### C8 — crop geometry -/

/-- C8: for positive source dimensions the crop filter's width is
`round_down_to_even(sourceHeight × 9/16)` (hence even and at most
`round(sourceHeight × 9/16)`), its height is the full source height, its
horizontal offset for the Center position is the floored
`(sourceWidth − cropWidth)/2`, and its vertical offset is 0. -/
theorem crop_geometry (w h : Nat) (hw : 0 < w) (hh : 0 < h) :
    (cropSize w h).1 = round_down_to_even ((h : ℚ) * 9 / 16) ∧
    Even (cropSize w h).1 ∧
    (((cropSize w h).1 : ℤ)) ≤ round ((h : ℚ) * 9 / 16) ∧
    (cropSize w h).2.1 = h ∧
    (cropSize w h).2.2.1 = ⌊((w : ℚ) - (((cropSize w h).1 : ℕ) : ℚ)) / 2⌋ ∧
    (cropSize w h).2.2.2 = 0 := by
  have hfl : ⌊(h : ℚ) * 9 / 16⌋₊ = h * 9 / 16 := by
    rw [show (h : ℚ) * 9 = ((h * 9 : ℕ) : ℚ) by push_cast; ring,
        show (16 : ℚ) = ((16 : ℕ) : ℚ) by norm_num, floor_natCast_div]
  refine ⟨?_, ?_, ?_, rfl, ?_, rfl⟩
  · show cropWidth h = _
    unfold round_down_to_even
    rw [show (h : ℚ) * 9 / 16 / 2 = ((h * 9 : ℕ) : ℚ) / ((32 : ℕ) : ℚ) by
      push_cast; ring]
    rw [floor_natCast_div]
    unfold cropWidth
    split <;> omega
  · show Even (cropWidth h)
    rw [Nat.even_iff]
    unfold cropWidth
    split <;> omega
  · show ((cropWidth h : ℤ)) ≤ _
    have h1 : cropWidth h ≤ h * 9 / 16 := by unfold cropWidth; split <;> omega
    have h2 : (0 : ℚ) ≤ (h : ℚ) * 9 / 16 := by positivity
    have h3 : ((h * 9 / 16 : ℕ) : ℤ) = ⌊(h : ℚ) * 9 / 16⌋ := by
      rw [← hfl]; exact natFloor_cast_eq_floor h2
    have h4 : ⌊(h : ℚ) * 9 / 16⌋ ≤ round ((h : ℚ) * 9 / 16) := by
      rw [round_eq]; exact Int.floor_mono (by linarith)
    calc ((cropWidth h : ℤ)) ≤ ((h * 9 / 16 : ℕ) : ℤ) := by exact_mod_cast h1
      _ = ⌊(h : ℚ) * 9 / 16⌋ := h3
      _ ≤ round ((h : ℚ) * 9 / 16) := h4
  · show cropOffsetX w h = ⌊((w : ℚ) - ((cropWidth h : ℕ) : ℚ)) / 2⌋
    unfold cropOffsetX
    rw [fdiv_two_floor]
    congr 1
    push_cast
    ring

/-- C8 witness at source 1920×1080. -/
theorem crop_geometry_witness :
    (cropSize 1920 1080).1 = round_down_to_even ((1080 : ℚ) * 9 / 16) ∧
    Even (cropSize 1920 1080).1 ∧
    (((cropSize 1920 1080).1 : ℤ)) ≤ round ((1080 : ℚ) * 9 / 16) ∧
    (cropSize 1920 1080).2.1 = 1080 ∧
    (cropSize 1920 1080).2.2.1 =
      ⌊((1920 : ℚ) - (((cropSize 1920 1080).1 : ℕ) : ℚ)) / 2⌋ ∧
    (cropSize 1920 1080).2.2.2 = 0 := by
  exact_mod_cast crop_geometry 1920 1080 (by decide) (by decide)

/-! ### C2 — sanitizer -/

/-- The replacement pass is idempotent on characters. -/
theorem replaceBad_idem (c : Char) : replaceBad (replaceBad c) = replaceBad c := by
  have hdash : '-' ∉ badChars := by decide
  by_cases h : c ∈ badChars <;> simp [replaceBad, h, hdash]

/-- C2 counterexample: the sanitizer is not idempotent on every string —
`sanitize_filename "a.b.c" = "a.b"` (only the last extension is stripped),
and sanitizing again strips `.b` as another extension, giving `"a"`. -/
theorem sanitize_not_idempotent :
    sanitize_filename (sanitize_filename "a.b.c") ≠ sanitize_filename "a.b.c" ∧
    sanitize_filename "a.b.c" = "a.b" := by
  constructor
  · decide
  · decide

/-- C2 (amended): for every input string the sanitized result contains no
disallowed character, and the sanitizer is idempotent on every input whose
sanitized result has no further extension to strip (in particular on
already-safe names); the empty string maps to the empty string.  Full
idempotence fails because a second application strips another extension. -/
theorem sanitize_safe_and_conditionally_idempotent (x : String) :
    (∀ c ∈ (sanitize_filename x).toList, c ∉ badChars) ∧
    (pathStem (sanitize_filename x) = sanitize_filename x →
      sanitize_filename (sanitize_filename x) = sanitize_filename x) ∧
    sanitize_filename "" = "" := by
  refine ⟨?_, ?_, by decide⟩
  · intro c hc
    have hc' : c ∈ (pathStemL x.toList).map replaceBad := hc
    obtain ⟨a, _, rfl⟩ := List.mem_map.mp hc'
    have hdash : '-' ∉ badChars := by decide
    unfold replaceBad
    split
    · exact hdash
    · assumption
  · intro hstem
    have hL : pathStemL ((sanitize_filename x).toList) = (sanitize_filename x).toList :=
      congrArg String.toList hstem
    show String.mk ((pathStemL ((sanitize_filename x).toList)).map replaceBad)
        = sanitize_filename x
    rw [hL]
    show String.mk (((pathStemL x.toList).map replaceBad).map replaceBad)
        = String.mk ((pathStemL x.toList).map replaceBad)
    rw [List.map_map]
    exact congrArg String.mk (List.map_congr_left fun a _ => replaceBad_idem a)

/-- C2 witness: idempotence instance at the safe name `"ab.mp4"`. -/
theorem sanitize_idempotent_witness :
    sanitize_filename (sanitize_filename "ab.mp4") = sanitize_filename "ab.mp4" :=
  (sanitize_safe_and_conditionally_idempotent "ab.mp4").2.1 (by decide)

/-! ### C7 — discovery by extension -/

/-- The four lowercase extension spellings from the source's set. -/
def lowerVideoExts : List String := [".mp4", ".mov", ".mkv", ".avi"]

/-- The four uppercase extension spellings from the source's set. -/
def upperVideoExts : List String := [".MP4", ".MOV", ".MKV", ".AVI"]

/-- Modelled from the spec: case-insensitive discovery — the suffix,
lowercased, matched against the four extensions. -/
def hasVideoExtSpec (file : String) : Bool :=
  lowerVideoExts.contains (String.mk ((pathSuffix file).toList.map Char.toLower))

/-- C7 counterexample: the mixed-case name `"video.Mp4"` has a suffix whose
lowercasing is `".mp4"`, so the claimed case-insensitive rule would discover
it, but the code's exact-match set does not; `find_videos` drops it. -/
theorem discovery_not_case_insensitive :
    hasVideoExt "video.Mp4" = false ∧
    hasVideoExtSpec "video.Mp4" = true ∧
    find_videos ["video.Mp4"] = [] := by
  refine ⟨by decide, by decide, by decide⟩

/-- C7 (amended): discovery matches the file's suffix exactly (case
sensitively) against the eight-element set — the four all-lowercase and the
four all-uppercase spellings of `.mp4/.mov/.mkv/.avi`; mixed-case suffixes
are not discovered. -/
theorem discovery_exact_case_match (f : String) :
    hasVideoExt f = true ↔
      pathSuffix f ∈ lowerVideoExts ∨ pathSuffix f ∈ upperVideoExts := by
  unfold hasVideoExt
  rw [List.elem_iff]
  show _ ∈ lowerVideoExts ++ upperVideoExts ↔ _
  exact List.mem_append

/-! ### C6 — zoom geometry -/

/-- Modelled from the spec: the external encoder's semantics of the fixed
zoom filter `scale=-2:1920,crop=1080:1920` — `scale=-2:1920` scales to
height 1920 preserving the aspect ratio, so the applied linear scale factor
on a source of height `h` is `1920 / h`; `crop=1080:1920` then center-crops
to the fixed 1080×1920 target. -/
def zoomAppliedScale (h : ℚ) : ℚ := 1920 / h

/-- The fixed crop target of the zoom filter string. -/
def zoomCropSize : Nat × Nat := (1080, 1920)

/-- The scale factor the claim states:
`max(targetWidth/sourceWidth, targetHeight/sourceHeight)` at the fixed
1080×1920 target. -/
def zoomClaimedScale (w h : ℚ) : ℚ := max (1080 / w) (1920 / h)

/-- C6 counterexample: the zoom branch always emits the same fixed filter;
for a 540×1920 source (narrower than 9:16) the filter's applied scale factor
is `1920/1920 = 1`, while `max(1080/540, 1920/1920) = 2`. -/
theorem zoom_scale_not_max :
    vfFor "zoom" 540 1920 = zoomVf ∧
    zoomAppliedScale 1920 ≠ zoomClaimedScale 540 1920 := by
  refine ⟨rfl, ?_⟩
  have h1 : zoomAppliedScale 1920 = 1 := by unfold zoomAppliedScale; norm_num
  have h2 : zoomClaimedScale 540 1920 = 2 := by
    unfold zoomClaimedScale
    rw [show (1080 : ℚ) / 540 = 2 by norm_num, show (1920 : ℚ) / 1920 = 1 by norm_num]
    rw [max_eq_left (by norm_num)]
  rw [h1, h2]
  norm_num

/-- C6 (amended): the zoom branch emits the fixed filter
`scale=-2:1920,crop=1080:1920` for every source; for sources at least as
wide as 9:16 (`9·h ≤ 16·w`) its applied scale factor `1920/h` equals the
spec's `max(1080/w, 1920/h)`, and the result is center-cropped to the fixed
1080×1920 target. -/
theorem zoom_fixed_target_geometry (w h : Nat) (hw : 0 < w) (hh : 0 < h)
    (hwide : 9 * h ≤ 16 * w) :
    zoomClaimedScale w h = zoomAppliedScale h ∧
    (∀ a b : Nat, vfFor "zoom" a b = zoomVf) ∧
    zoomCropSize = (1080, 1920) := by
  refine ⟨?_, fun a b => rfl, rfl⟩
  unfold zoomClaimedScale zoomAppliedScale
  apply max_eq_right
  rw [div_le_div_iff₀ (by exact_mod_cast hw) (by exact_mod_cast hh)]
  have hc : (9 * h : ℚ) ≤ 16 * w := by exact_mod_cast hwide
  linarith

/-- C6 witness at a 1080×1920 source (exactly 9:16). -/
theorem zoom_fixed_target_witness :
    zoomClaimedScale 1080 1920 = zoomAppliedScale 1920 ∧
    (∀ a b : Nat, vfFor "zoom" a b = zoomVf) ∧
    zoomCropSize = (1080, 1920) := by
  exact_mod_cast zoom_fixed_target_geometry 1080 1920 (by decide) (by decide) (by decide)

/-! ### Unfolding lemmas for the retry loop -/

/-- One unfolding of the loop at two remaining iterations. -/
theorem attemptLoop_two (env : Env) (m op : String) (a pc ec : Nat) (f : Bool)
    (vfs : List String) :
    attemptLoop env m op 2 a pc ec f vfs =
      match attemptStep env m op a pc ec f vfs with
      | .inl out => out
      | .inr s => attemptLoop env m op 1 (a + 1) s.1 s.2.1 s.2.2.1 s.2.2.2 := rfl

/-- One unfolding of the loop at one remaining iteration. -/
theorem attemptLoop_one (env : Env) (m op : String) (a pc ec : Nat) (f : Bool)
    (vfs : List String) :
    attemptLoop env m op 1 a pc ec f vfs =
      match attemptStep env m op a pc ec f vfs with
      | .inl out => out
      | .inr s => attemptLoop env m op 0 (a + 1) s.1 s.2.1 s.2.2.1 s.2.2.2 := rfl

/-- Whatever the counters, a transiently failing second (last) attempt ends
the job as `failed` with 2 attempts made. -/
theorem attemptLoop_final_fails (env : Env) (m op : String) (pc ec : Nat) (f : Bool)
    (vfs : List String) (hin : env.inputExists = true) (hsz : env.inputSize ≠ 0)
    (htr : transientFailure env 1) :
    (attemptLoop env m op 1 1 pc ec f vfs).attempts = 2 ∧
    isFailed (attemptLoop env m op 1 1 pc ec f vfs).result = true := by
  cases hp1 : env.probe 1 with
  | err e =>
    simp [attemptLoop_one, attemptStep, hin, hsz, hp1, max_retries, isFailed]
  | ok w1 h1 =>
    simp only [transientFailure, hp1] at htr
    obtain ⟨hw1, hh1, henc1⟩ := htr
    have hv : ¬(w1 ≤ 0 ∨ h1 ≤ 0) := by omega
    cases he1 : env.encode 1 with
    | done rc ex sz =>
      rw [he1] at henc1
      simp only [encodeFails] at henc1
      simp [attemptLoop_one, attemptStep, hin, hsz, hp1, he1, hv, henc1,
        max_retries, isFailed]
    | timedOut lf =>
      simp [attemptLoop_one, attemptStep, hin, hsz, hp1, he1, hv, max_retries, isFailed]
    | raised msg lf =>
      simp [attemptLoop_one, attemptStep, hin, hsz, hp1, he1, hv, max_retries, isFailed]

/-- Whatever the counters, the file left behind by the second (last) attempt
is exactly what its encoder invocation left: the state carried over from the
first attempt never survives. -/
theorem attemptLoop_final_fileLeft (env : Env) (m op : String) (pc ec : Nat)
    (f : Bool) (vfs : List String) (w1 h1 : Int) (hin : env.inputExists = true)
    (hsz : env.inputSize ≠ 0) (hp1 : env.probe 1 = .ok w1 h1)
    (hw1 : 0 < w1) (hh1 : 0 < h1) :
    (attemptLoop env m op 1 1 pc ec f vfs).outFileLeft = fileLeftBy (env.encode 1) := by
  have hv : ¬(w1 ≤ 0 ∨ h1 ≤ 0) := by omega
  cases he1 : env.encode 1 with
  | done rc ex sz =>
    by_cases hsucc : rc = 0 ∧ ex = true ∧ 0 < sz
    · simp [attemptLoop_one, attemptStep, hin, hsz, hp1, he1, hv, hsucc,
        max_retries, fileLeftBy]
    · simp [attemptLoop_one, attemptStep, hin, hsz, hp1, he1, hv, hsucc,
        max_retries, fileLeftBy]
  | timedOut lf =>
    simp [attemptLoop_one, attemptStep, hin, hsz, hp1, he1, hv, max_retries, fileLeftBy]
  | raised msg lf =>
    simp [attemptLoop_one, attemptStep, hin, hsz, hp1, he1, hv, max_retries, fileLeftBy]

/-! ### C3 — retry bound -/

/-- C3: with no pre-existing output, a job whose every attempt fails
transiently (probe raises, or encoder fails) makes exactly 2 attempts and
ends `failed`; the non-transient validations — missing input, empty input,
non-positive probed dimensions — end `failed` after a single attempt. -/
theorem convert_video_retry_bound (env : Env) (od m q vn : String) (w h : Int)
    (hout : env.outputExists = false) :
    ((env.inputExists = true) → env.inputSize ≠ 0 → (∀ n, transientFailure env n) →
      (convert_video env od m q vn).attempts = 2 ∧
      isFailed (convert_video env od m q vn).result = true) ∧
    (env.inputExists = false →
      (convert_video env od m q vn).result = .failed "Input file not found" ∧
      (convert_video env od m q vn).attempts = 1) ∧
    (env.inputExists = true → env.inputSize = 0 →
      (convert_video env od m q vn).result = .failed "Input file is empty" ∧
      (convert_video env od m q vn).attempts = 1) ∧
    (env.inputExists = true → env.inputSize ≠ 0 → env.probe 0 = .ok w h →
      (w ≤ 0 ∨ h ≤ 0) →
      isFailed (convert_video env od m q vn).result = true ∧
      (convert_video env od m q vn).attempts = 1) := by
  have hcv : convert_video env od m q vn
      = attemptLoop env m (output_path od vn) 2 0 0 0 false [] := by
    simp [convert_video, hout, max_retries]
  refine ⟨?_, ?_, ?_, ?_⟩
  · intro hin hsz htr
    rw [hcv, attemptLoop_two]
    cases hp0 : env.probe 0 with
    | err e =>
      rw [show attemptStep env m (output_path od vn) 0 0 0 false []
          = .inr (1, 0, false, []) from by
        simp [attemptStep, hin, hsz, hp0, max_retries]]
      exact attemptLoop_final_fails env m (output_path od vn) 1 0 false []
        hin hsz (htr 1)
    | ok w0 h0 =>
      have ht0 := htr 0
      simp only [transientFailure, hp0] at ht0
      obtain ⟨hw0, hh0, henc0⟩ := ht0
      have hv0 : ¬(w0 ≤ 0 ∨ h0 ≤ 0) := by omega
      cases he0 : env.encode 0 with
      | done rc ex sz =>
        rw [he0] at henc0
        simp only [encodeFails] at henc0
        rw [show attemptStep env m (output_path od vn) 0 0 0 false []
            = .inr (1, 1, false, [vfFor m w0.toNat h0.toNat]) from by
          simp [attemptStep, hin, hsz, hp0, he0, hv0, henc0, max_retries]]
        exact attemptLoop_final_fails env m (output_path od vn) 1 1 false _
          hin hsz (htr 1)
      | timedOut lf =>
        rw [show attemptStep env m (output_path od vn) 0 0 0 false []
            = .inr (1, 1, false, [vfFor m w0.toNat h0.toNat]) from by
          simp [attemptStep, hin, hsz, hp0, he0, hv0, max_retries]]
        exact attemptLoop_final_fails env m (output_path od vn) 1 1 false _
          hin hsz (htr 1)
      | raised msg lf =>
        rw [show attemptStep env m (output_path od vn) 0 0 0 false []
            = .inr (1, 1, lf, [vfFor m w0.toNat h0.toNat]) from by
          simp [attemptStep, hin, hsz, hp0, he0, hv0, max_retries]]
        exact attemptLoop_final_fails env m (output_path od vn) 1 1 lf _
          hin hsz (htr 1)
  · intro hin
    rw [hcv, attemptLoop_two]
    rw [show attemptStep env m (output_path od vn) 0 0 0 false []
        = .inl ⟨.failed "Input file not found", 1, 0, 0, true, [], false⟩ from by
      simp [attemptStep, hin]]
    exact ⟨rfl, rfl⟩
  · intro hin hsz
    rw [hcv, attemptLoop_two]
    rw [show attemptStep env m (output_path od vn) 0 0 0 false []
        = .inl ⟨.failed "Input file is empty", 1, 0, 0, true, [], false⟩ from by
      simp [attemptStep, hin, hsz]]
    exact ⟨rfl, rfl⟩
  · intro hin hsz hp0 hiv
    rw [hcv, attemptLoop_two]
    rw [show attemptStep env m (output_path od vn) 0 0 0 false []
        = .inl ⟨.failed s!"Invalid dimensions: {w}x{h}", 1, 1, 0, true, [], false⟩ from by
      simp [attemptStep, hin, hsz, hp0, hiv]]
    exact ⟨rfl, rfl⟩

/-- An environment whose probe raises on every attempt. -/
def envProbeErr : Env :=
  ⟨false, true, 5, fun _ => .err "probe boom", fun _ => .done 1 false 0⟩

/-- C3 witness: with an always-failing probe the job makes exactly 2 attempts
and fails. -/
theorem convert_video_retry_bound_witness :
    (convert_video envProbeErr "out" "letterbox" "high" "v.mp4").attempts = 2 ∧
    isFailed (convert_video envProbeErr "out" "letterbox" "high" "v.mp4").result = true :=
  (convert_video_retry_bound envProbeErr "out" "letterbox" "high" "v.mp4" 1 1 rfl).1
    rfl (by decide) (fun _ => trivial)

/-! ### C4 — skip on existing output -/

/-- C4: when the output file `{outputDir}/{sanitize(name)}_9x16.mp4` already
exists the job returns `Skipped` immediately — no input check, no probe call,
no encoder invocation — and a batch all of whose jobs find their outputs
pre-existing resolves every job as `Skipped` with zero probe or encoder
work. -/
theorem convert_video_skip_immediate (env : Env) (jobs : List (Env × String))
    (od m q vn : String) :
    (env.outputExists = true →
      convert_video env od m q vn =
        ⟨.skipped (output_path od vn), 0, 0, 0, false, [], true⟩) ∧
    ((∀ j ∈ jobs, j.1.outputExists = true) →
      ∀ r ∈ run_batch jobs od m q,
        isSkipped r.result = true ∧ r.probeCalls = 0 ∧ r.encodeCalls = 0 ∧
        r.inputChecked = false) := by
  constructor
  · intro h
    simp [convert_video, h]
  · intro hall r hr
    rw [run_batch] at hr
    obtain ⟨j, hj, rfl⟩ := List.mem_map.mp hr
    have hj1 := hall j hj
    simp [convert_video, hj1, isSkipped]

/-- An environment whose output file already exists. -/
def envSkip : Env :=
  ⟨true, false, 0, fun _ => .err "never probed", fun _ => .timedOut false⟩

/-- C4 witness: the skipped result at a concrete environment. -/
theorem convert_video_skip_witness :
    convert_video envSkip "out" "letterbox" "high" "a.mp4" =
      ⟨.skipped (output_path "out" "a.mp4"), 0, 0, 0, false, [], true⟩ :=
  (convert_video_skip_immediate envSkip [] "out" "letterbox" "high" "a.mp4").1 rfl

/-! ### C5 — partial-output cleanup -/

/-- An environment whose encoder always exits non-zero but leaves a
non-empty output file. -/
def envPartialLeft : Env :=
  ⟨false, true, 1, fun _ => .ok 1920 1080, fun _ => .done 1 true 5⟩

/-- C5 counterexample: when the final encoder attempt fails with a partial
file in place, `convert_video` returns `failed` with the partial output file
still present — the final-failure path performs no cleanup. -/
theorem failed_job_leaves_partial_output :
    isFailed (convert_video envPartialLeft "out" "letterbox" "high" "v.mp4").result
      = true ∧
    (convert_video envPartialLeft "out" "letterbox" "high" "v.mp4").outFileLeft
      = true := by
  refine ⟨by decide, by decide⟩

/-- C5 (amended): when the first attempt's encoder invocation fails with
non-zero exit / missing / empty output, or times out, the partial output is
deleted before the retry, so the file present on return is exactly whatever
the second attempt's encoder invocation left; on final failure no cleanup
runs, so a failed job can leave the last attempt's partial file. -/
theorem cleanup_before_retry_only (env : Env) (od m q vn : String)
    (w0 h0 w1 h1 : Int)
    (hout : env.outputExists = false) (hin : env.inputExists = true)
    (hsz : env.inputSize ≠ 0)
    (hp0 : env.probe 0 = .ok w0 h0) (hw0 : 0 < w0) (hh0 : 0 < h0)
    (hp1 : env.probe 1 = .ok w1 h1) (hw1 : 0 < w1) (hh1 : 0 < h1)
    (hfail0 : encodeFails (env.encode 0)) (hclean0 : cleansOnRetry (env.encode 0)) :
    (convert_video env od m q vn).outFileLeft = fileLeftBy (env.encode 1) := by
  have hv0 : ¬(w0 ≤ 0 ∨ h0 ≤ 0) := by omega
  have hcv : convert_video env od m q vn
      = attemptLoop env m (output_path od vn) 2 0 0 0 false [] := by
    simp [convert_video, hout, max_retries]
  rw [hcv, attemptLoop_two]
  cases he0 : env.encode 0 with
  | done rc ex sz =>
    rw [he0] at hfail0
    simp only [encodeFails] at hfail0
    rw [show attemptStep env m (output_path od vn) 0 0 0 false []
        = .inr (1, 1, false, [vfFor m w0.toNat h0.toNat]) from by
      simp [attemptStep, hin, hsz, hp0, he0, hv0, hfail0, max_retries]]
    exact attemptLoop_final_fileLeft env m (output_path od vn) 1 1 false _
      w1 h1 hin hsz hp1 hw1 hh1
  | timedOut lf =>
    rw [show attemptStep env m (output_path od vn) 0 0 0 false []
        = .inr (1, 1, false, [vfFor m w0.toNat h0.toNat]) from by
      simp [attemptStep, hin, hsz, hp0, he0, hv0, max_retries]]
    exact attemptLoop_final_fileLeft env m (output_path od vn) 1 1 false _
      w1 h1 hin hsz hp1 hw1 hh1
  | raised msg lf =>
    rw [he0] at hclean0
    simp only [cleansOnRetry] at hclean0

/-- An environment that times out (leaving a partial file) on the first
attempt and fails cleanly on the second. -/
def envTimeoutOnce : Env :=
  ⟨false, true, 7, fun _ => .ok 1920 1080,
    fun n => if n = 0 then .timedOut true else .done 1 false 0⟩

/-- C5 witness: the first attempt's partial file is gone; the job's final
file state is the second attempt's. -/
theorem cleanup_before_retry_witness :
    (convert_video envTimeoutOnce "out" "letterbox" "high" "v.mp4").outFileLeft
      = fileLeftBy (envTimeoutOnce.encode 1) :=
  cleanup_before_retry_only envTimeoutOnce "out" "letterbox" "high" "v.mp4"
    1920 1080 1920 1080 rfl rfl (by decide) rfl (by decide) (by decide)
    rfl (by decide) (by decide) trivial trivial

/-! ### C9 — no exception escapes -/

/-- C9: `convert_video` always returns one of the three result shapes, and
when every attempt raises an exception the job ends `failed` carrying the
last exception's message after both attempts; an always-timing-out encoder
likewise ends `failed` with the timeout message after both attempts. -/
theorem convert_video_no_exception_escape (env : Env) (od m q vn : String)
    (w0 h0 w1 h1 : Int)
    (hout : env.outputExists = false) (hin : env.inputExists = true)
    (hsz : env.inputSize ≠ 0)
    (hp0 : env.probe 0 = .ok w0 h0) (hw0 : 0 < w0) (hh0 : 0 < h0)
    (hp1 : env.probe 1 = .ok w1 h1) (hw1 : 0 < w1) (hh1 : 0 < h1) :
    (∀ e : Env, isSkipped (convert_video e od m q vn).result = true ∨
        isSuccess (convert_video e od m q vn).result = true ∨
        isFailed (convert_video e od m q vn).result = true) ∧
    (∀ m0 b0 m1 b1, env.encode 0 = .raised m0 b0 → env.encode 1 = .raised m1 b1 →
      (convert_video env od m q vn).result = .failed m1 ∧
      (convert_video env od m q vn).attempts = 2) ∧
    (∀ b0 b1, env.encode 0 = .timedOut b0 → env.encode 1 = .timedOut b1 →
      (convert_video env od m q vn).result
        = .failed "Conversion timeout (>10 minutes)" ∧
      (convert_video env od m q vn).attempts = 2) := by
  have hv0 : ¬(w0 ≤ 0 ∨ h0 ≤ 0) := by omega
  have hv1 : ¬(w1 ≤ 0 ∨ h1 ≤ 0) := by omega
  refine ⟨?_, ?_, ?_⟩
  · intro e
    rcases hr : (convert_video e od m q vn).result with p | p | msg
    · exact Or.inl rfl
    · exact Or.inr (Or.inl rfl)
    · exact Or.inr (Or.inr rfl)
  · intro m0 b0 m1 b1 he0 he1
    simp [convert_video, hout, attemptLoop_two, attemptLoop_one, attemptStep,
      hin, hsz, hp0, hp1, he0, he1, hv0, hv1, max_retries]
  · intro b0 b1 he0 he1
    simp [convert_video, hout, attemptLoop_two, attemptLoop_one, attemptStep,
      hin, hsz, hp0, hp1, he0, he1, hv0, hv1, max_retries]

/-- An environment whose encoder raises on every attempt. -/
def envRaises : Env :=
  ⟨false, true, 9, fun _ => .ok 1920 1080, fun _ => .raised "boom" false⟩

/-- C9 witness: the always-raising encoder yields a failed result carrying
the last exception's message after exactly 2 attempts. -/
theorem convert_video_no_exception_escape_witness :
    (convert_video envRaises "out" "letterbox" "high" "v.mp4").result
      = .failed "boom" ∧
    (convert_video envRaises "out" "letterbox" "high" "v.mp4").attempts = 2 :=
  (convert_video_no_exception_escape envRaises "out" "letterbox" "high" "v.mp4"
    1920 1080 1920 1080 rfl rfl (by decide) rfl (by decide) (by decide)
    rfl (by decide) (by decide)).2.1 "boom" false "boom" false rfl rfl

/-! ### C10 — unvalidated narrow-source crop geometry -/

/-- An environment probing a 500×1000 source, narrower than 9:16. -/
def envNarrow : Env :=
  ⟨false, true, 1, fun _ => .ok 500 1000, fun _ => .done 0 true 1⟩

/-- C10: for the 500×1000 source (positive dimensions, but narrower than
9:16) the crop method computes a crop width of 562 > 500 and a negative
horizontal offset −31, and `convert_video` passes the resulting filter
`crop=562:1000:-31:0` to the encoder unrejected and unclamped (one encoder
invocation, reported as success). -/
theorem crop_narrow_source_geometry :
    (0 : Int) < 500 ∧ (0 : Int) < 1000 ∧
    500 < cropWidth 1000 ∧ cropOffsetX 500 1000 < 0 ∧
    (convert_video envNarrow "out" "crop" "high" "v.mp4").vfSent
      = ["crop=562:1000:-31:0"] ∧
    (convert_video envNarrow "out" "crop" "high" "v.mp4").encodeCalls = 1 ∧
    isSuccess (convert_video envNarrow "out" "crop" "high" "v.mp4").result = true := by
  refine ⟨by decide, by decide, by decide, by decide, by decide, by decide, by decide⟩
